import Mathlib

/-!
# Verification of the Hiruyoru meal-logging backend

Shallow embedding of the server-side logic of the Hiruyoru repository:
the drizzle-backed data access layer (`src/server/db.ts`), the tRPC
routers (`routers.ts`: meals, groups, recommendations, reports) and the
guest-data migration procedure.  Calendar dates (`YYYY-MM-DD` strings in
the source) are embedded as year/month/day triples with proleptic
Gregorian day arithmetic, which is what JavaScript `Date` UTC arithmetic
computes on valid dates; the SQL lexicographic comparison of zero-padded
date strings coincides with the lexicographic order on the triples.
The external completion service (`invokeLLM`) is embedded as an explicit
outcome parameter, and `Math.random`-driven choices as explicit index
parameters.
-/

namespace Hiruyoru

/-! ## Calendar dates -/

/-- A calendar date, the embedding of a `YYYY-MM-DD` date string. -/
structure CivilDate where
  year : Nat
  month : Nat
  day : Nat
deriving DecidableEq, Repr

/-- Gregorian leap-year rule. -/
def isLeapYear (y : Nat) : Bool :=
  (y % 4 == 0 && y % 100 != 0) || y % 400 == 0

/-- Number of days of month `m` in year `y`. -/
def daysInMonth (y m : Nat) : Nat :=
  if m = 2 then (if isLeapYear y then 29 else 28)
  else if m = 4 ∨ m = 6 ∨ m = 9 ∨ m = 11 then 30 else 31

/-- A date is valid when its month and day are within calendar bounds. -/
def CivilDate.valid (d : CivilDate) : Prop :=
  1 ≤ d.month ∧ d.month ≤ 12 ∧ 1 ≤ d.day ∧ d.day ≤ daysInMonth d.year d.month

instance (d : CivilDate) : Decidable d.valid := by
  unfold CivilDate.valid; infer_instance

/-- The next calendar day (what JavaScript `setDate(getDate() + 1)` computes
on a valid UTC date). -/
def succDay (d : CivilDate) : CivilDate :=
  if d.day < daysInMonth d.year d.month then ⟨d.year, d.month, d.day + 1⟩
  else if d.month < 12 then ⟨d.year, d.month + 1, 1⟩
  else ⟨d.year + 1, 1, 1⟩

/-- Adding `n` days to a date (JavaScript `setDate(getDate() + n)`). -/
def addDays (d : CivilDate) (n : Nat) : CivilDate :=
  succDay^[n] d

/-- Lexicographic order on dates; on valid dates it agrees with the
byte-wise order of the corresponding zero-padded `YYYY-MM-DD` strings,
which is the order SQL `gte`/`lte` uses in the source. -/
def dateLe (a b : CivilDate) : Prop :=
  a.year < b.year ∨
    (a.year = b.year ∧ (a.month < b.month ∨ (a.month = b.month ∧ a.day ≤ b.day)))

instance (a b : CivilDate) : Decidable (dateLe a b) := by
  unfold dateLe; infer_instance

/-- Zero-pad a numeral to two digits. -/
def pad2 (n : Nat) : String :=
  if n < 10 then "0" ++ toString n else toString n

/-- Zero-pad a numeral to four digits. -/
def pad4 (n : Nat) : String :=
  if n < 10 then "000" ++ toString n
  else if n < 100 then "00" ++ toString n
  else if n < 1000 then "0" ++ toString n
  else toString n

/-- Render a date as the `YYYY-MM-DD` string the source stores
(`toISOString().split('T')[0]`). -/
def formatDate (d : CivilDate) : String :=
  pad4 d.year ++ "-" ++ pad2 d.month ++ "-" ++ pad2 d.day

/-! ## Data model (src/drizzle/schema.ts) -/

/-- The closed meal-slot enumeration. -/
inductive MealType where
  | lunch
  | dinner
deriving DecidableEq, Repr

/-- The closed dish-category enumeration. -/
inductive Category where
  | japanese
  | western
  | chinese
  | other
deriving DecidableEq, Repr

/-- Group membership roles. -/
inductive MemberRole where
  | owner
  | member
deriving DecidableEq, Repr

/-- A row of the `users` table (fields the server logic touches). -/
structure User where
  id : Nat
  openId : String
  name : Option String
  email : Option String
  loginMethod : Option String
  role : String
  lastSignedIn : Nat
  notificationEnabled : Option Bool
  lunchReminderTime : Option String
deriving DecidableEq, Repr

/-- A row of the `meal_records` table. -/
structure MealRecord where
  id : Nat
  userId : Nat
  groupId : Option Nat
  date : CivilDate
  mealType : MealType
  dishName : String
  category : Category
  note : Option String
  imageUrl : Option String
  isFavorite : Option Bool
deriving DecidableEq, Repr

/-- A row of the `groups` table. -/
structure Group where
  id : Nat
  name : String
  description : Option String
  inviteCode : String
  ownerId : Nat
deriving DecidableEq, Repr

/-- A row of the `group_members` table (the auto-increment surrogate id is
not referenced anywhere in the server logic and is omitted). -/
structure GroupMember where
  groupId : Nat
  userId : Nat
  role : MemberRole
deriving DecidableEq, Repr

/-- The relational store, with the auto-increment counters the database
maintains for the surrogate keys. -/
structure DbState where
  users : List User
  meals : List MealRecord
  groups : List Group
  members : List GroupMember
  nextUserId : Nat
  nextMealId : Nat
  nextGroupId : Nat
deriving DecidableEq, Repr

/-- `getDb()` in the source yields `null` when no database is configured;
every operation receives the store as `Option DbState` accordingly. -/
abbrev Db := Option DbState

/-! ## Data access layer (src/server/db.ts)

Read operations return plain values, as in the source, where an
unavailable store short-circuits to an empty result before any query
runs.  Write operations return the thrown error or the result together
with the store after the statement, mirroring that a thrown error in the
source leaves the store untouched. -/

/-- `getUserByOpenId`: first user row with the given openId, if any. -/
def getUserByOpenId (db : Db) (openId : String) : Option User :=
  match db with
  | none => none
  | some s => s.users.find? fun u => decide (u.openId = openId)

/-- `getUserById`. -/
def getUserById (db : Db) (id : Nat) : Option User :=
  match db with
  | none => none
  | some s => s.users.find? fun u => decide (u.id = id)

/-- `getMealsByDate`: the user's meal records for one date. -/
def getMealsByDate (db : Db) (userId : Nat) (date : CivilDate) :
    List MealRecord :=
  match db with
  | none => []
  | some s => s.meals.filter fun m => decide (m.userId = userId ∧ m.date = date)

/-- Descending-by-date insertion used to embed the SQL `ORDER BY date DESC`
of `getMealsByDateRange` and `getRecentMeals`. -/
def insertByDateDesc (m : MealRecord) : List MealRecord → List MealRecord
  | [] => [m]
  | x :: xs =>
    if decide (dateLe x.date m.date) then m :: x :: xs
    else x :: insertByDateDesc m xs

/-- Sort meal records by date, newest first. -/
def orderByDateDesc : List MealRecord → List MealRecord
  | [] => []
  | x :: xs => insertByDateDesc x (orderByDateDesc xs)

/-- `getMealsByDateRange`: the user's records with `startDate ≤ date ≤
endDate` (bounds inclusive), ordered by date descending. -/
def getMealsByDateRange (db : Db) (userId : Nat)
    (startDate endDate : CivilDate) : List MealRecord :=
  match db with
  | none => []
  | some s =>
    orderByDateDesc (s.meals.filter fun m =>
      decide (m.userId = userId ∧ dateLe startDate m.date ∧ dateLe m.date endDate))

/-- `getRecentMeals`: the user's records ordered by date descending,
truncated to `limit`.  The source breaks date ties by `createdAt`
descending; the tiebreak column is not modelled (no claim concerns it). -/
def getRecentMeals (db : Db) (userId : Nat) (limit : Nat) : List MealRecord :=
  match db with
  | none => []
  | some s =>
    (orderByDateDesc (s.meals.filter fun m => decide (m.userId = userId))).take limit

/-- `getTodayLunch`: the first lunch record of the user for the date. -/
def getTodayLunch (db : Db) (userId : Nat) (date : CivilDate) :
    Option MealRecord :=
  match db with
  | none => none
  | some s =>
    s.meals.find? fun m =>
      decide (m.userId = userId ∧ m.date = date ∧ m.mealType = MealType.lunch)

/-- `getGroupById`. -/
def getGroupById (db : Db) (id : Nat) : Option Group :=
  match db with
  | none => none
  | some s => s.groups.find? fun g => decide (g.id = id)

/-- `getGroupByInviteCode`. -/
def getGroupByInviteCode (db : Db) (inviteCode : String) : Option Group :=
  match db with
  | none => none
  | some s => s.groups.find? fun g => decide (g.inviteCode = inviteCode)

/-- `getUserGroups`: each group the user belongs to, annotated with the
user's role in it (defaulting to `member` as the source's `|| "member"`). -/
def getUserGroups (db : Db) (userId : Nat) : List (Group × MemberRole) :=
  match db with
  | none => []
  | some s =>
    let memberships := s.members.filter fun m => decide (m.userId = userId)
    if memberships.isEmpty then []
    else
      let groupIds := memberships.map fun m => m.groupId
      let groupsResult := s.groups.filter fun g => groupIds.contains g.id
      groupsResult.map fun g =>
        (g, match memberships.find? fun m => decide (m.groupId = g.id) with
            | some m => m.role
            | none => MemberRole.member)

/-- `getGroupMembers`: membership rows of a group joined with a projection
of the user row (falling back to null fields when the user is missing). -/
def getGroupMembers (db : Db) (groupId : Nat) :
    List (GroupMember × (Nat × Option String × Option String)) :=
  match db with
  | none => []
  | some s =>
    let members := s.members.filter fun m => decide (m.groupId = groupId)
    let userIds := members.map fun m => m.userId
    if userIds.isEmpty then []
    else
      let usersResult := s.users.filter fun u => userIds.contains u.id
      members.map fun member =>
        (member,
          match usersResult.find? fun u => decide (u.id = member.userId) with
          | some u => (u.id, u.name, u.email)
          | none => (member.userId, none, none))

/-- `getGroupMealsForDate`: all members' meal records for the date, each
joined with the member's display name (`?.name || null` in the source maps
a missing user, a null name and an empty-string name all to null). -/
def getGroupMealsForDate (db : Db) (groupId : Nat) (date : CivilDate) :
    List (MealRecord × Option String) :=
  match db with
  | none => []
  | some s =>
    let members := s.members.filter fun m => decide (m.groupId = groupId)
    let userIds := members.map fun m => m.userId
    if userIds.isEmpty then []
    else
      let meals := s.meals.filter fun m =>
        userIds.contains m.userId && decide (m.date = date)
      let usersResult := s.users.filter fun u => userIds.contains u.id
      meals.map fun meal =>
        (meal,
          match usersResult.find? fun u => decide (u.id = meal.userId) with
          | some u =>
            match u.name with
            | some n => if n = "" then none else some n
            | none => none
          | none => none)

/-- The insert payload of `createMealRecord` (`InsertMealRecord`). -/
structure InsertMealRecord where
  userId : Nat
  groupId : Option Nat
  date : CivilDate
  mealType : MealType
  dishName : String
  category : Category
  note : Option String
  imageUrl : Option String
deriving DecidableEq, Repr

/-- `createMealRecord`: inserts a row and returns its auto-increment id;
throws when the store is unavailable. -/
def createMealRecord (db : Db) (data : InsertMealRecord) :
    Except String Nat × Db :=
  match db with
  | none => (Except.error "Database not available", none)
  | some s =>
    (Except.ok s.nextMealId,
      some { s with
        meals := s.meals ++
          [{ id := s.nextMealId, userId := data.userId, groupId := data.groupId,
             date := data.date, mealType := data.mealType,
             dishName := data.dishName, category := data.category,
             note := data.note, imageUrl := data.imageUrl,
             isFavorite := some false }],
        nextMealId := s.nextMealId + 1 })

/-- `deleteMealRecord`: removes the row only when owned by the caller
(silently a no-op otherwise). -/
def deleteMealRecord (db : Db) (id userId : Nat) : Except String Unit × Db :=
  match db with
  | none => (Except.error "Database not available", none)
  | some s =>
    (Except.ok (),
      some { s with meals := s.meals.filter fun m => !decide (m.id = id ∧ m.userId = userId) })

/-- `updateUserNotificationSettings`. -/
def updateUserNotificationSettings (db : Db) (userId : Nat) (enabled : Bool)
    (reminderTime : String) : Except String Unit × Db :=
  match db with
  | none => (Except.error "Database not available", none)
  | some s =>
    let users := s.users.map fun u =>
      if decide (u.id = userId) then
        { u with notificationEnabled := some enabled,
                 lunchReminderTime := some reminderTime }
      else u
    (Except.ok (), some { s with users := users })

/-- The upsert payload of `upsertUser` (`InsertUser`): an outer `none`
means the field was left `undefined` by the caller; for the nullable text
columns `some none` is an explicit null. -/
structure InsertUser where
  openId : String
  name : Option (Option String)
  email : Option (Option String)
  loginMethod : Option (Option String)
  lastSignedIn : Option Nat
  role : Option String
deriving DecidableEq, Repr

/-- The row `upsertUser` inserts when no row with the openId exists:
provided fields, role defaulting per the owner identity, `lastSignedIn`
defaulting to now, and the schema defaults for the remaining columns. -/
def insertUserRow (u : InsertUser) (ownerOpenId : String) (now : Nat)
    (id : Nat) : User :=
  { id := id
    openId := u.openId
    name := (u.name.getD none)
    email := (u.email.getD none)
    loginMethod := (u.loginMethod.getD none)
    role :=
      match u.role with
      | some r => r
      | none => if u.openId = ownerOpenId then "admin" else "user"
    lastSignedIn := u.lastSignedIn.getD now
    notificationEnabled := some true
    lunchReminderTime := some "12:00" }

/-- The `onDuplicateKeyUpdate` update set of `upsertUser` applied to the
existing row: each provided field overwrites, the role falls back to
`admin` for the configured owner identity, and an otherwise-empty update
set degenerates to refreshing `lastSignedIn`. -/
def applyUpsertUpdate (u : InsertUser) (ownerOpenId : String) (now : Nat)
    (v : User) : User :=
  let v := match u.name with | none => v | some x => { v with name := x }
  let v := match u.email with | none => v | some x => { v with email := x }
  let v := match u.loginMethod with | none => v | some x => { v with loginMethod := x }
  let v := match u.lastSignedIn with | none => v | some t => { v with lastSignedIn := t }
  let v :=
    match u.role with
    | some r => { v with role := r }
    | none => if u.openId = ownerOpenId then { v with role := "admin" } else v
  if u.name = none ∧ u.email = none ∧ u.loginMethod = none ∧
      u.lastSignedIn = none ∧ u.role = none ∧ u.openId ≠ ownerOpenId then
    { v with lastSignedIn := now }
  else v

/-- `upsertUser`: rejects a missing openId, silently returns when the
store is unavailable (warn-and-return in the source), otherwise inserts
or updates the row keyed by the unique openId column. -/
def upsertUser (ownerOpenId : String) (now : Nat) (db : Db)
    (user : InsertUser) : Except String Unit × Db :=
  if user.openId = "" then
    (Except.error "User openId is required for upsert", db)
  else
    match db with
    | none => (Except.ok (), none)
    | some s =>
      match s.users.find? fun v => decide (v.openId = user.openId) with
      | some _ =>
        let users := s.users.map fun v =>
          if decide (v.openId = user.openId) then
            applyUpsertUpdate user ownerOpenId now v
          else v
        (Except.ok (), some { s with users := users })
      | none =>
        (Except.ok (),
          some { s with
            users := s.users ++ [insertUserRow user ownerOpenId now s.nextUserId],
            nextUserId := s.nextUserId + 1 })

/-- The fixed invite-code alphabet (no 0/O/I/1/L). -/
def inviteChars : List Char := "ABCDEFGHJKLMNPQRSTUVWXYZ23456789".data

/-- `generateInviteCode`: eight independent picks from the alphabet.  The
source draws each index as `Math.floor(Math.random() * chars.length)`,
an integer in `[0, 32)`; the draws are passed in explicitly. -/
def generateInviteCode (rand : Fin 8 → Fin 32) : String :=
  String.mk ((List.finRange 8).map fun i =>
    inviteChars.get ((rand i).cast (show 32 = inviteChars.length from rfl)))

/-- `createGroup`: inserts the group row with a fresh invite code, then
inserts the owner membership row, and returns the new group id. -/
def createGroup (db : Db) (name : String) (description : Option String)
    (ownerId : Nat) (rand : Fin 8 → Fin 32) : Except String Nat × Db :=
  match db with
  | none => (Except.error "Database not available", none)
  | some s =>
    let inviteCode := generateInviteCode rand
    let groupId := s.nextGroupId
    (Except.ok groupId,
      some { s with
        groups := s.groups ++
          [{ id := groupId, name := name, description := description,
             inviteCode := inviteCode, ownerId := ownerId }],
        members := s.members ++
          [{ groupId := groupId, userId := ownerId, role := MemberRole.owner }],
        nextGroupId := s.nextGroupId + 1 })

/-- `joinGroup`: rejects an existing (group, user) membership, otherwise
inserts a `member` row. -/
def joinGroup (db : Db) (groupId userId : Nat) : Except String Unit × Db :=
  match db with
  | none => (Except.error "Database not available", none)
  | some s =>
    if s.members.any fun m => decide (m.groupId = groupId ∧ m.userId = userId) then
      (Except.error "Already a member of this group", some s)
    else
      (Except.ok (),
        some { s with members := s.members ++
          [{ groupId := groupId, userId := userId, role := MemberRole.member }] })

/-- `leaveGroup`: unconditional delete of the membership row. -/
def leaveGroup (db : Db) (groupId userId : Nat) : Except String Unit × Db :=
  match db with
  | none => (Except.error "Database not available", none)
  | some s =>
    let members := s.members.filter fun m =>
      !decide (m.groupId = groupId ∧ m.userId = userId)
    (Except.ok (), some { s with members := members })

/-- `deleteGroup`: verifies ownership via `getGroupById` before any delete
statement runs; on success deletes all membership rows, then the group. -/
def deleteGroup (db : Db) (groupId ownerId : Nat) : Except String Unit × Db :=
  match db with
  | none => (Except.error "Database not available", none)
  | some s =>
    match s.groups.find? fun g => decide (g.id = groupId) with
    | none => (Except.error "Not authorized to delete this group", some s)
    | some g =>
      if g.ownerId ≠ ownerId then
        (Except.error "Not authorized to delete this group", some s)
      else
        let members := s.members.filter fun m => !decide (m.groupId = groupId)
        let groups := s.groups.filter fun g => !decide (g.id = groupId)
        (Except.ok (), some { s with members := members, groups := groups })

/-! ## Completion service interface (routers.ts)

`invokeLLM` is an external collaborator; its outcome at one call site is
embedded as an explicit value: the call can throw, return a response with
missing or non-string content, return content that is not valid JSON, or
return schema-conforming recommendations.  The strict JSON schema of the
recommendation call sites constrains the shape of each array item, not
the length of the array. -/

/-- One item of the `recommendations` array of the strict JSON schema. -/
structure Recommendation where
  name : String
  category : Category
  reason : String
deriving DecidableEq, Repr

/-- Outcome of one `invokeLLM` recommendation call. -/
inductive LLMOutcome where
  | requestError
  | noContent
  | invalidJson
  | parsed (recommendations : List Recommendation)
deriving DecidableEq, Repr

/-- The hardcoded fallback recommendation set of the dinner-recommendation
call sites. -/
def fallbackRecommendations : List Recommendation :=
  [{ name := "焼き魚定食", category := Category.japanese,
     reason := "バランスの良い和食でヘルシーです" },
   { name := "野菜たっぷりスープ", category := Category.western,
     reason := "野菜をしっかり摂れます" },
   { name := "豆腐ハンバーグ", category := Category.japanese,
     reason := "タンパク質を補給できます" }]

/-- `recommendations.getDinnerRecommendations`: returns the parsed
`recommendations` array on success, the fallback set on any failure of
the completion call. -/
def getDinnerRecommendations (llm : LLMOutcome) (lunchDishName : String)
    (lunchCategory : Category) : List Recommendation :=
  match llm with
  | LLMOutcome.parsed recs => recs
  | _ => fallbackRecommendations

/-- Result shape of `recommendations.getGroupDinnerRecommendations`:
recommendations plus the member lunches (name, dish, category) that fed
the prompt. -/
structure GroupRecommendations where
  recommendations : List Recommendation
  memberLunches : List (Option String × String × Category)
deriving DecidableEq, Repr

/-- `recommendations.getGroupDinnerRecommendations`: aggregates all group
members' lunches for the date; with no lunches it short-circuits to the
fallback set without calling the completion service (the result does not
depend on `llm` in that branch); otherwise success returns the parsed
array and failure the fallback set, each alongside the lunch summary. -/
def getGroupDinnerRecommendations (db : Db) (groupId : Nat)
    (date : CivilDate) (llm : LLMOutcome) : GroupRecommendations :=
  let meals := getGroupMealsForDate db groupId date
  let lunches := meals.filter fun m => decide (m.1.mealType = MealType.lunch)
  if lunches.isEmpty then
    { recommendations := fallbackRecommendations, memberLunches := [] }
  else
    let memberLunches := lunches.map fun l => (l.2, l.1.dishName, l.1.category)
    match llm with
    | LLMOutcome.parsed recs =>
      { recommendations := recs, memberLunches := memberLunches }
    | _ =>
      { recommendations := fallbackRecommendations, memberLunches := memberLunches }

/-! ## groups.create router -/

/-- `groups.create`: creates the group, then re-reads it by id and returns
the row (or the thrown store error). -/
def routerGroupsCreate (db : Db) (name : String) (description : Option String)
    (userId : Nat) (rand : Fin 8 → Fin 32) : Except String (Option Group) × Db :=
  match createGroup db name description userId rand with
  | (Except.error e, db') => (Except.error e, db')
  | (Except.ok id, db') => (Except.ok (getGroupById db' id), db')

/-! ## reports.getWeeklyReport -/

/-- JavaScript `Math.round` on the (nonnegative) values the report
computes: round half away from zero. -/
def jsRound (q : ℚ) : ℤ := ⌊q + 1 / 2⌋

/-- Result shape of `reports.getWeeklyReport`. -/
structure WeeklyReport where
  weekStartDate : CivilDate
  weekEndDate : CivilDate
  totalMeals : Nat
  lunches : Nat
  dinners : Nat
  categoryJapanese : Nat
  categoryWestern : Nat
  categoryChinese : Nat
  categoryOther : Nat
  dailyMeals : List (CivilDate × Bool × Bool)
  completionRate : ℤ
  meals : List (Nat × CivilDate × MealType × String × Category × Option String)
deriving Repr

/-- One step of the source loop
`if (dailyMeals[meal.date]) dailyMeals[meal.date][meal.mealType] = true`:
an entry is touched only when its date key is already present. -/
def markMeal (entries : List (CivilDate × Bool × Bool)) (m : MealRecord) :
    List (CivilDate × Bool × Bool) :=
  entries.map fun e =>
    if e.1 = m.date then
      match m.mealType with
      | MealType.lunch => (e.1, true, e.2.2)
      | MealType.dinner => (e.1, e.2.1, true)
    else e

/-- `reports.getWeeklyReport`: computes the week end date as start + 6
days, fetches the week's meals, tallies per-category counts, marks the
lunch/dinner flags of the seven window days, and derives the completion
rate `Math.round(completedDays / 7 * 100)`. -/
def getWeeklyReport (db : Db) (userId : Nat) (weekStartDate : CivilDate) :
    WeeklyReport :=
  let weekEndDate := addDays weekStartDate 6
  let meals := getMealsByDateRange db userId weekStartDate weekEndDate
  let window := (List.range 7).map fun i => addDays weekStartDate i
  let dailyMeals := meals.foldl markMeal (window.map fun d => (d, false, false))
  let completedDays := dailyMeals.countP fun e => e.2.1 && e.2.2
  { weekStartDate := weekStartDate
    weekEndDate := weekEndDate
    totalMeals := meals.length
    lunches := (meals.filter fun m => decide (m.mealType = MealType.lunch)).length
    dinners := (meals.filter fun m => decide (m.mealType = MealType.dinner)).length
    categoryJapanese := (meals.filter fun m => decide (m.category = Category.japanese)).length
    categoryWestern := (meals.filter fun m => decide (m.category = Category.western)).length
    categoryChinese := (meals.filter fun m => decide (m.category = Category.chinese)).length
    categoryOther := (meals.filter fun m => decide (m.category = Category.other)).length
    dailyMeals := dailyMeals
    completionRate := jsRound ((completedDays : ℚ) / 7 * 100)
    meals := meals.map fun m =>
      (m.id, m.date, m.mealType, m.dishName, m.category, m.note) }

/-! ## Guest-data migration -/

/-- A record of the device-local guest cache (use-local-meals.ts). -/
structure LocalMealRecord where
  id : String
  date : CivilDate
  mealType : MealType
  dishName : String
  category : Category
  note : Option String
  createdAt : String
deriving DecidableEq, Repr

/-- Does a remote meal record with the same user id, date and meal type
already exist? -/
def hasDuplicate (s : DbState) (userId : Nat) (m : LocalMealRecord) : Bool :=
  s.meals.any fun r =>
    decide (r.userId = userId ∧ r.date = m.date ∧ r.mealType = m.mealType)

/-- Insert one local record as a remote meal record of the user (the
migration inserts with no group tag and no image). -/
def insertLocalMeal (s : DbState) (userId : Nat) (m : LocalMealRecord) :
    DbState :=
  { s with
    meals := s.meals ++
      [{ id := s.nextMealId, userId := userId, groupId := none,
         date := m.date, mealType := m.mealType, dishName := m.dishName,
         category := m.category, note := m.note, imageUrl := none,
         isFavorite := some false }],
    nextMealId := s.nextMealId + 1 }

/-- Modelled from the spec: the `migration.migrateGuestData` router is not
present under src/ (only its acceptance tests call it); §4.3 fixes its
canonical policy: for each locally cached record, in array order, skip it
when a remote record with the same user id, date and meal type already
exists, otherwise insert it, and report `migratedCount`, the number of
records actually inserted. -/
def migrateLoop (userId : Nat) :
    List LocalMealRecord → DbState → Nat × DbState
  | [], s => (0, s)
  | m :: ms, s =>
    if hasDuplicate s userId m then migrateLoop userId ms s
    else
      ((migrateLoop userId ms (insertLocalMeal s userId m)).1 + 1,
       (migrateLoop userId ms (insertLocalMeal s userId m)).2)

/-- Modelled from the spec: entry point of the guest-to-account migration;
returns `migratedCount` together with the store after the batch. -/
def migrateGuestData (s : DbState) (userId : Nat)
    (meals : List LocalMealRecord) : Nat × DbState :=
  migrateLoop userId meals s

/-- All meal rows of the store (empty when unavailable). -/
def dbMealList (db : Db) : List MealRecord :=
  match db with
  | none => []
  | some s => s.meals

/-- The claim-side characterization of the weekly completed-day count:
a day of the 7-day window counts as completed exactly when both a lunch
record and a dinner record of the user exist for that date. -/
def specCompletedDays (db : Db) (userId : Nat) (weekStartDate : CivilDate) :
    Nat :=
  (List.range 7).countP fun i =>
    decide ((∃ m ∈ dbMealList db, m.userId = userId ∧
        m.date = addDays weekStartDate i ∧ m.mealType = MealType.lunch) ∧
      (∃ m ∈ dbMealList db, m.userId = userId ∧
        m.date = addDays weekStartDate i ∧ m.mealType = MealType.dinner))

/-! ## Supporting lemmas: calendar arithmetic -/

theorem daysInMonth_pos (y m : Nat) : 1 ≤ daysInMonth y m := by
  unfold daysInMonth
  split_ifs <;> omega

theorem succDay_valid {d : CivilDate} (h : d.valid) : (succDay d).valid := by
  obtain ⟨h1, h2, h3, h4⟩ := h
  unfold succDay CivilDate.valid
  split_ifs with hd hm <;> dsimp only <;>
    refine ⟨?_, ?_, ?_, ?_⟩ <;>
    first
      | exact daysInMonth_pos _ _
      | omega

theorem addDays_valid {d : CivilDate} (h : d.valid) (n : Nat) :
    (addDays d n).valid := by
  induction n generalizing d with
  | zero => exact h
  | succ k ih =>
    rw [addDays, Function.iterate_succ_apply]
    exact ih (succDay_valid h)

theorem dateLe_refl (d : CivilDate) : dateLe d d := by
  unfold dateLe; omega

theorem dateLe_trans {a b c : CivilDate} (hab : dateLe a b) (hbc : dateLe b c) :
    dateLe a c := by
  unfold dateLe at *; omega

theorem dateLe_succDay {d : CivilDate} (h : d.valid) : dateLe d (succDay d) := by
  obtain ⟨h1, h2, h3, h4⟩ := h
  unfold succDay dateLe
  split_ifs with hd hm <;> dsimp only <;> omega

theorem dateLe_addDays {d : CivilDate} (h : d.valid) (n : Nat) :
    dateLe d (addDays d n) := by
  induction n generalizing d with
  | zero => exact dateLe_refl d
  | succ k ih =>
    rw [addDays, Function.iterate_succ_apply]
    exact dateLe_trans (dateLe_succDay h) (ih (succDay_valid h))

theorem addDays_add (d : CivilDate) (i k : Nat) :
    addDays d (k + i) = addDays (addDays d i) k := by
  unfold addDays
  exact Function.iterate_add_apply succDay k i d

theorem addDays_mono {d : CivilDate} (h : d.valid) {i j : Nat} (hij : i ≤ j) :
    dateLe (addDays d i) (addDays d j) := by
  have hj : j = (j - i) + i := by omega
  rw [hj, addDays_add]
  exact dateLe_addDays (addDays_valid h i) (j - i)

/-! ## Supporting lemmas: sorting -/

theorem mem_insertByDateDesc {x m : MealRecord} {l : List MealRecord} :
    x ∈ insertByDateDesc m l ↔ x = m ∨ x ∈ l := by
  induction l with
  | nil => simp [insertByDateDesc]
  | cons y ys ih =>
    unfold insertByDateDesc
    split_ifs with h
    · simp
    · simp only [List.mem_cons, ih]
      tauto

theorem mem_orderByDateDesc {x : MealRecord} {l : List MealRecord} :
    x ∈ orderByDateDesc l ↔ x ∈ l := by
  induction l with
  | nil => simp [orderByDateDesc]
  | cons y ys ih =>
    unfold orderByDateDesc
    rw [mem_insertByDateDesc, ih, List.mem_cons]

/-! ## Claim theorems -/

/-- C5: every `groups.create` call produces a group whose invite code has
exactly 8 characters, each drawn from the alphabet
`ABCDEFGHJKLMNPQRSTUVWXYZ23456789`, and records the creating user as a
member of the new group with role owner. -/
theorem groupsCreate_inviteCode_and_owner
    (s : DbState) (name : String) (description : Option String)
    (userId : Nat) (rand : Fin 8 → Fin 32)
    (hwf : ∀ g ∈ s.groups, g.id < s.nextGroupId) :
    ∃ g : Group, ∃ s' : DbState,
      routerGroupsCreate (some s) name description userId rand
        = (Except.ok (some g), some s') ∧
      g.inviteCode.length = 8 ∧
      (∀ c ∈ g.inviteCode.data, c ∈ inviteChars) ∧
      g.ownerId = userId ∧
      ({ groupId := g.id, userId := userId,
         role := MemberRole.owner } : GroupMember) ∈ s'.members := by
  refine ⟨{ id := s.nextGroupId, name := name, description := description,
            inviteCode := generateInviteCode rand, ownerId := userId },
          { s with
            groups := s.groups ++
              [{ id := s.nextGroupId, name := name, description := description,
                 inviteCode := generateInviteCode rand, ownerId := userId }],
            members := s.members ++
              [{ groupId := s.nextGroupId, userId := userId,
                 role := MemberRole.owner }],
            nextGroupId := s.nextGroupId + 1 },
          ?_, ?_, ?_, rfl, ?_⟩
  · unfold routerGroupsCreate createGroup getGroupById
    have hnone : s.groups.find? (fun g => decide (g.id = s.nextGroupId)) = none := by
      rw [List.find?_eq_none]
      intro g hg
      simp only [decide_eq_true_eq]
      exact Nat.ne_of_lt (hwf g hg)
    simp [List.find?_append, hnone]
  · simp [generateInviteCode, String.length]
  · intro c hc
    simp only [generateInviteCode, String.mk, List.mem_map] at hc
    obtain ⟨i, _, rfl⟩ := hc
    exact List.mem_iff_get.mpr ⟨_, rfl⟩
  · simp

/-- C5 witness: creating a group in a store with one user. -/
theorem groupsCreate_inviteCode_and_owner_witness :
    ∃ g : Group, ∃ s' : DbState,
      routerGroupsCreate
          (some { users := [], meals := [], groups := [], members := [],
                  nextUserId := 2, nextMealId := 1, nextGroupId := 1 })
          "家族" none 1 (fun _ => 0)
        = (Except.ok (some g), some s') ∧
      g.inviteCode.length = 8 ∧
      (∀ c ∈ g.inviteCode.data, c ∈ inviteChars) ∧
      g.ownerId = 1 ∧
      ({ groupId := g.id, userId := 1,
         role := MemberRole.owner } : GroupMember) ∈ s'.members :=
  groupsCreate_inviteCode_and_owner
    { users := [], meals := [], groups := [], members := [],
      nextUserId := 2, nextMealId := 1, nextGroupId := 1 }
    "家族" none 1 (fun _ => 0) (by simp)

/-- C6: `groups.delete` fails with the not-authorized error unless the
caller is the stored owner; called by the owner it removes every
membership row of the group and the group row, after which
`groups.getById` returns no result. -/
theorem groupsDelete_owner_only :
    (∀ (s : DbState) (groupId callerId : Nat),
        (¬ ∃ g, s.groups.find? (fun g => decide (g.id = groupId)) = some g ∧
            g.ownerId = callerId) →
        (deleteGroup (some s) groupId callerId).1
          = Except.error "Not authorized to delete this group") ∧
    (∀ (s : DbState) (groupId callerId : Nat) (g : Group),
        s.groups.find? (fun g => decide (g.id = groupId)) = some g →
        g.ownerId = callerId →
        deleteGroup (some s) groupId callerId
          = (Except.ok (),
             some { s with
               members := s.members.filter fun m => !decide (m.groupId = groupId),
               groups := s.groups.filter fun g => !decide (g.id = groupId) }) ∧
        getGroupById
            (some { s with
              members := s.members.filter fun m => !decide (m.groupId = groupId),
              groups := s.groups.filter fun g => !decide (g.id = groupId) })
            groupId = none) := by
  constructor
  · intro s groupId callerId hno
    cases hfind : s.groups.find? (fun g => decide (g.id = groupId)) with
    | none => simp [deleteGroup, hfind]
    | some g =>
      have hne : g.ownerId ≠ callerId := fun h => hno ⟨g, hfind, h⟩
      simp [deleteGroup, hfind, hne]
  · intro s groupId callerId g hfind howner
    constructor
    · simp [deleteGroup, hfind, howner]
    · show (s.groups.filter fun g => !decide (g.id = groupId)).find?
        (fun g => decide (g.id = groupId)) = none
      rw [List.find?_eq_none]
      intro x hx
      rw [List.mem_filter] at hx
      simp only [Bool.not_eq_eq_eq_not, Bool.not_true,
        decide_eq_false_iff_not] at hx
      simp only [decide_eq_true_eq]
      exact hx.2

/-- C6 witness: owner deletes a one-member group. -/
theorem groupsDelete_owner_only_witness :
    (deleteGroup
        (some { users := [], meals := [],
                groups := [{ id := 1, name := "g", description := none,
                             inviteCode := "ABCDEFGH", ownerId := 7 }],
                members := [{ groupId := 1, userId := 7,
                              role := MemberRole.owner }],
                nextUserId := 8, nextMealId := 1, nextGroupId := 2 })
        1 9).1 = Except.error "Not authorized to delete this group" ∧
    getGroupById
        (some { users := [], meals := [],
                groups := ([{ id := 1, name := "g", description := none,
                              inviteCode := "ABCDEFGH", ownerId := 7 }] :
                    List Group).filter fun g => !decide (g.id = 1),
                members := ([{ groupId := 1, userId := 7,
                               role := MemberRole.owner }] :
                    List GroupMember).filter fun m => !decide (m.groupId = 1),
                nextUserId := 8, nextMealId := 1, nextGroupId := 2 })
        1 = none :=
  ⟨groupsDelete_owner_only.1 _ 1 9 (by decide),
   (groupsDelete_owner_only.2
      { users := [], meals := [],
        groups := [{ id := 1, name := "g", description := none,
                     inviteCode := "ABCDEFGH", ownerId := 7 }],
        members := [{ groupId := 1, userId := 7, role := MemberRole.owner }],
        nextUserId := 8, nextMealId := 1, nextGroupId := 2 }
      1 7 { id := 1, name := "g", description := none,
            inviteCode := "ABCDEFGH", ownerId := 7 }
      (by decide) rfl).2⟩

/-- C7: `groups.join` raises the already-member error exactly when a
membership row for the (group, user) pair exists; otherwise it appends a
membership row with role member. -/
theorem groupsJoin_already_member_iff (s : DbState) (groupId userId : Nat) :
    ((joinGroup (some s) groupId userId).1
        = Except.error "Already a member of this group"
      ↔ ∃ m ∈ s.members, m.groupId = groupId ∧ m.userId = userId) ∧
    ((¬ ∃ m ∈ s.members, m.groupId = groupId ∧ m.userId = userId) →
      joinGroup (some s) groupId userId
        = (Except.ok (),
           some { s with members := s.members ++
             [{ groupId := groupId, userId := userId,
                role := MemberRole.member }] })) := by
  have hany : (s.members.any fun m =>
      decide (m.groupId = groupId ∧ m.userId = userId)) = true
        ↔ ∃ m ∈ s.members, m.groupId = groupId ∧ m.userId = userId := by
    simp [List.any_eq_true]
  constructor
  · cases hb : s.members.any fun m =>
        decide (m.groupId = groupId ∧ m.userId = userId) with
    | true => simp [joinGroup, hb, hany.mp hb]
    | false =>
      have hno : ¬ ∃ m ∈ s.members, m.groupId = groupId ∧ m.userId = userId := by
        intro hx
        have htrue := hany.mpr hx
        rw [hb] at htrue
        exact Bool.false_ne_true htrue
      simp [joinGroup, hb, hno]
  · intro h
    have hb : (s.members.any fun m =>
        decide (m.groupId = groupId ∧ m.userId = userId)) = false :=
      Bool.eq_false_iff.mpr fun hc => h (hany.mp hc)
    simp only [joinGroup, hb]
    simp

/-- C7 witness: joining a fresh pair succeeds, an existing pair errors. -/
theorem groupsJoin_already_member_iff_witness :
    joinGroup
        (some { users := [], meals := [], groups := [],
                members := [], nextUserId := 1, nextMealId := 1,
                nextGroupId := 1 })
        3 4
      = (Except.ok (),
         some { users := [], meals := [], groups := [],
                members := [{ groupId := 3, userId := 4,
                              role := MemberRole.member }],
                nextUserId := 1, nextMealId := 1, nextGroupId := 1 }) :=
  (groupsJoin_already_member_iff
      { users := [], meals := [], groups := [], members := [],
        nextUserId := 1, nextMealId := 1, nextGroupId := 1 } 3 4).2
    (by simp)

/-! Supporting lemmas for the migration procedure. -/

theorem migrateLoop_cons_dup {uid : Nat} {m : LocalMealRecord}
    {ms : List LocalMealRecord} {s : DbState}
    (h : hasDuplicate s uid m = true) :
    migrateLoop uid (m :: ms) s = migrateLoop uid ms s := by
  simp [migrateLoop, h]

theorem migrateLoop_cons_new {uid : Nat} {m : LocalMealRecord}
    {ms : List LocalMealRecord} {s : DbState}
    (h : hasDuplicate s uid m = false) :
    migrateLoop uid (m :: ms) s
      = ((migrateLoop uid ms (insertLocalMeal s uid m)).1 + 1,
         (migrateLoop uid ms (insertLocalMeal s uid m)).2) := by
  simp [migrateLoop, h]

theorem migrateLoop_meals_append (uid : Nat) :
    ∀ (ms : List LocalMealRecord) (s : DbState),
      ∃ t, (migrateLoop uid ms s).2.meals = s.meals ++ t := by
  intro ms
  induction ms with
  | nil => intro s; exact ⟨[], by simp [migrateLoop]⟩
  | cons m tail ih =>
    intro s
    cases hdup : hasDuplicate s uid m with
    | true =>
      obtain ⟨t, ht⟩ := ih s
      exact ⟨t, by rw [migrateLoop_cons_dup hdup, ht]⟩
    | false =>
      obtain ⟨t, ht⟩ := ih (insertLocalMeal s uid m)
      refine ⟨{ id := s.nextMealId, userId := uid, groupId := none,
                date := m.date, mealType := m.mealType,
                dishName := m.dishName, category := m.category,
                note := m.note, imageUrl := none,
                isFavorite := some false } :: t, ?_⟩
      rw [migrateLoop_cons_new hdup]
      show (migrateLoop uid tail (insertLocalMeal s uid m)).2.meals = _
      rw [ht]
      simp [insertLocalMeal]

theorem hasDuplicate_mono {uid : Nat} {m : LocalMealRecord}
    {ms : List LocalMealRecord} {s : DbState}
    (h : hasDuplicate s uid m = true) :
    hasDuplicate (migrateLoop uid ms s).2 uid m = true := by
  obtain ⟨t, ht⟩ := migrateLoop_meals_append uid ms s
  unfold hasDuplicate at *
  rw [ht, List.any_append, h, Bool.true_or]

theorem migrateLoop_all_dup (uid : Nat) :
    ∀ (ms : List LocalMealRecord) (s : DbState),
      ∀ m ∈ ms, hasDuplicate (migrateLoop uid ms s).2 uid m = true := by
  intro ms
  induction ms with
  | nil => intro s m hm; cases hm
  | cons x tail ih =>
    intro s m hm
    cases hdup : hasDuplicate s uid x with
    | true =>
      rw [migrateLoop_cons_dup hdup]
      rcases List.mem_cons.mp hm with rfl | hm
      · exact hasDuplicate_mono hdup
      · exact ih s m hm
    | false =>
      have hins : hasDuplicate (insertLocalMeal s uid x) uid x = true := by
        unfold hasDuplicate insertLocalMeal
        rw [List.any_append]
        simp
      rw [migrateLoop_cons_new hdup]
      show hasDuplicate (migrateLoop uid tail (insertLocalMeal s uid x)).2 uid m
        = true
      rcases List.mem_cons.mp hm with rfl | hm
      · exact hasDuplicate_mono hins
      · exact ih (insertLocalMeal s uid x) m hm

theorem migrateLoop_skip_all (uid : Nat) :
    ∀ (ms : List LocalMealRecord) (s : DbState),
      (∀ m ∈ ms, hasDuplicate s uid m = true) →
      migrateLoop uid ms s = (0, s) := by
  intro ms
  induction ms with
  | nil => intro s _; rfl
  | cons x tail ih =>
    intro s h
    rw [migrateLoop_cons_dup (h x (List.mem_cons_self x tail))]
    exact ih s fun m hm => h m (List.mem_cons_of_mem x hm)

theorem migrateLoop_count (uid : Nat) :
    ∀ (ms : List LocalMealRecord) (s : DbState),
      (migrateLoop uid ms s).2.meals.length
        = s.meals.length + (migrateLoop uid ms s).1 := by
  intro ms
  induction ms with
  | nil => intro s; simp [migrateLoop]
  | cons x tail ih =>
    intro s
    cases hdup : hasDuplicate s uid x with
    | true =>
      rw [migrateLoop_cons_dup hdup]
      exact ih s
    | false =>
      rw [migrateLoop_cons_new hdup]
      show (migrateLoop uid tail (insertLocalMeal s uid x)).2.meals.length
        = s.meals.length + ((migrateLoop uid tail (insertLocalMeal s uid x)).1 + 1)
      rw [ih (insertLocalMeal s uid x)]
      simp [insertLocalMeal]
      omega

/-- C1: the migration skips a local record exactly per the canonical
deduplication policy — a record is not inserted when a remote meal with
the same user id, date and meal type already exists at that point — and
consequently a second migration run of the same batch over the resulting
store inserts nothing and reports `migratedCount = 0`. -/
theorem migrateGuestData_dedup_policy :
    (∀ (s : DbState) (uid : Nat) (m : LocalMealRecord)
        (ms : List LocalMealRecord),
        hasDuplicate s uid m = true →
        migrateGuestData s uid (m :: ms) = migrateGuestData s uid ms) ∧
    (∀ (s : DbState) (uid : Nat) (meals : List LocalMealRecord),
        migrateGuestData (migrateGuestData s uid meals).2 uid meals
          = (0, (migrateGuestData s uid meals).2)) := by
  constructor
  · intro s uid m ms h
    unfold migrateGuestData
    simp [migrateLoop, h]
  · intro s uid meals
    unfold migrateGuestData
    exact migrateLoop_skip_all uid meals _
      fun m hm => migrateLoop_all_dup uid meals s m hm

/-- C1 witness: a batch whose single record duplicates an existing remote
meal is skipped, and the re-run of a one-record batch migrates nothing. -/
theorem migrateGuestData_dedup_policy_witness :
    hasDuplicate
        { users := [],
          meals := [{ id := 1, userId := 1, groupId := none,
                      date := { year := 2025, month := 1, day := 10 },
                      mealType := MealType.lunch, dishName := "カレーライス",
                      category := Category.japanese, note := none,
                      imageUrl := none, isFavorite := some false }],
          groups := [], members := [], nextUserId := 2, nextMealId := 2,
          nextGroupId := 1 } 1
        { id := "g1", date := { year := 2025, month := 1, day := 10 },
          mealType := MealType.lunch, dishName := "カレーライス（ゲスト）",
          category := Category.japanese, note := none,
          createdAt := "2025-01-10T12:00:00Z" } = true ∧
    migrateGuestData
        { users := [],
          meals := [{ id := 1, userId := 1, groupId := none,
                      date := { year := 2025, month := 1, day := 10 },
                      mealType := MealType.lunch, dishName := "カレーライス",
                      category := Category.japanese, note := none,
                      imageUrl := none, isFavorite := some false }],
          groups := [], members := [], nextUserId := 2, nextMealId := 2,
          nextGroupId := 1 } 1
        [{ id := "g1", date := { year := 2025, month := 1, day := 10 },
           mealType := MealType.lunch, dishName := "カレーライス（ゲスト）",
           category := Category.japanese, note := none,
           createdAt := "2025-01-10T12:00:00Z" }]
      = migrateGuestData
          { users := [],
            meals := [{ id := 1, userId := 1, groupId := none,
                        date := { year := 2025, month := 1, day := 10 },
                        mealType := MealType.lunch, dishName := "カレーライス",
                        category := Category.japanese, note := none,
                        imageUrl := none, isFavorite := some false }],
            groups := [], members := [], nextUserId := 2, nextMealId := 2,
            nextGroupId := 1 } 1 [] :=
  ⟨by decide,
   migrateGuestData_dedup_policy.1 _ 1
     { id := "g1", date := { year := 2025, month := 1, day := 10 },
       mealType := MealType.lunch, dishName := "カレーライス（ゲスト）",
       category := Category.japanese, note := none,
       createdAt := "2025-01-10T12:00:00Z" } [] (by decide)⟩

/-- C2: the reported `migratedCount` equals the number of records actually
inserted remotely (the growth of the remote meal table), and the empty
batch reports `migratedCount = 0`. -/
theorem migrateGuestData_count_inserted :
    (∀ (s : DbState) (uid : Nat) (meals : List LocalMealRecord),
        (migrateGuestData s uid meals).2.meals.length
          = s.meals.length + (migrateGuestData s uid meals).1) ∧
    (∀ (s : DbState) (uid : Nat), migrateGuestData s uid [] = (0, s)) :=
  ⟨fun s uid meals => migrateLoop_count uid meals s, fun _ _ => rfl⟩

/-- C9 counterexample: `upsertUser` is a write operation, yet with the
store unavailable it silently returns success instead of throwing. -/
theorem upsertUser_unavailable_is_silent :
    upsertUser "owner-open-id" 0 none
        { openId := "user-1", name := none, email := none,
          loginMethod := none, lastSignedIn := none, role := none }
      = (Except.ok (), none) := rfl

/-- C9 (amended): with the store unavailable, `upsertUser` silently
returns success without writing, while every other write operation throws
and every read operation degrades to an empty result (empty list or
null/undefined) instead of throwing. -/
theorem dbUnavailable_reads_empty_writes_throw :
    (∀ ownerOpenId now u, u.openId ≠ "" →
      upsertUser ownerOpenId now none u = (Except.ok (), none)) ∧
    (∀ openId, getUserByOpenId none openId = none) ∧
    (∀ id, getUserById none id = none) ∧
    (∀ uid d, getMealsByDate none uid d = []) ∧
    (∀ uid a b, getMealsByDateRange none uid a b = []) ∧
    (∀ uid n, getRecentMeals none uid n = []) ∧
    (∀ uid d, getTodayLunch none uid d = none) ∧
    (∀ id, getGroupById none id = none) ∧
    (∀ c, getGroupByInviteCode none c = none) ∧
    (∀ uid, getUserGroups none uid = []) ∧
    (∀ gid, getGroupMembers none gid = []) ∧
    (∀ gid d, getGroupMealsForDate none gid d = []) ∧
    (∀ data, (createMealRecord none data).1
      = Except.error "Database not available") ∧
    (∀ id uid, (deleteMealRecord none id uid).1
      = Except.error "Database not available") ∧
    (∀ uid e t, (updateUserNotificationSettings none uid e t).1
      = Except.error "Database not available") ∧
    (∀ name desc oid rand, (createGroup none name desc oid rand).1
      = Except.error "Database not available") ∧
    (∀ gid uid, (joinGroup none gid uid).1
      = Except.error "Database not available") ∧
    (∀ gid uid, (leaveGroup none gid uid).1
      = Except.error "Database not available") ∧
    (∀ gid oid, (deleteGroup none gid oid).1
      = Except.error "Database not available") := by
  refine ⟨?_, fun _ => rfl, fun _ => rfl, fun _ _ => rfl, fun _ _ _ => rfl,
    fun _ _ => rfl, fun _ _ => rfl, fun _ => rfl, fun _ => rfl, fun _ => rfl,
    fun _ => rfl, fun _ _ => rfl, fun _ => rfl, fun _ _ => rfl,
    fun _ _ _ => rfl, fun _ _ _ _ => rfl, fun _ _ => rfl, fun _ _ => rfl,
    fun _ _ => rfl⟩
  intro ownerOpenId now u h
  unfold upsertUser
  rw [if_neg h]

/-- C9 witness: a guest user upsert against the unavailable store. -/
theorem dbUnavailable_reads_empty_writes_throw_witness :
    upsertUser "o" 0 none
        { openId := "guest", name := none, email := none,
          loginMethod := none, lastSignedIn := none, role := none }
      = (Except.ok (), none) :=
  dbUnavailable_reads_empty_writes_throw.1 "o" 0
    { openId := "guest", name := none, email := none,
      loginMethod := none, lastSignedIn := none, role := none }
    (by decide)

/-- C4 counterexample: when the completion call succeeds with a
schema-conforming response whose `recommendations` array does not hold
three items, the procedure returns that array unchanged — the result is
not always exactly 3 items. -/
theorem getDinnerRecommendations_not_always_three :
    (getDinnerRecommendations (LLMOutcome.parsed []) "カレーライス"
      Category.japanese).length ≠ 3 := by
  decide

/-- C4 (amended): `recommendations.getDinnerRecommendations` never
propagates a completion-service failure: on every failure outcome
(request error, missing content, JSON parse error) it returns exactly the
3 hardcoded fallback recommendations; on success it returns the parsed
`recommendations` array, whose length the schema does not constrain. -/
theorem getDinnerRecommendations_fallback_on_failure
    (llm : LLMOutcome) (dish : String) (cat : Category)
    (h : llm = LLMOutcome.requestError ∨ llm = LLMOutcome.noContent ∨
      llm = LLMOutcome.invalidJson) :
    getDinnerRecommendations llm dish cat = fallbackRecommendations ∧
    (getDinnerRecommendations llm dish cat).length = 3 ∧
    ∀ recs, getDinnerRecommendations (LLMOutcome.parsed recs) dish cat = recs := by
  rcases h with h | h | h <;> subst h <;> exact ⟨rfl, rfl, fun _ => rfl⟩

/-- C4 witness: the request-error outcome takes the fallback path. -/
theorem getDinnerRecommendations_fallback_on_failure_witness :
    getDinnerRecommendations LLMOutcome.requestError "カレーライス"
        Category.japanese
      = fallbackRecommendations ∧
    (getDinnerRecommendations LLMOutcome.requestError "カレーライス"
        Category.japanese).length = 3 ∧
    ∀ recs, getDinnerRecommendations (LLMOutcome.parsed recs) "カレーライス"
        Category.japanese = recs :=
  getDinnerRecommendations_fallback_on_failure LLMOutcome.requestError
    "カレーライス" Category.japanese (Or.inl rfl)

/-- C8: when no member of the group has a lunch record for the date,
the group recommendation returns the fixed fallback set with an empty
member-lunch list, independently of the completion-service outcome (the
service is never consulted on this path). -/
theorem getGroupDinnerRecommendations_fallback_no_lunches
    (s : DbState) (groupId : Nat) (date : CivilDate)
    (h : ∀ mem ∈ s.members, mem.groupId = groupId →
      ∀ m ∈ s.meals, m.userId = mem.userId → m.date = date →
        m.mealType ≠ MealType.lunch) :
    ∀ llm, getGroupDinnerRecommendations (some s) groupId date llm
      = { recommendations := fallbackRecommendations, memberLunches := [] } := by
  intro llm
  have hnil : (getGroupMealsForDate (some s) groupId date).filter
      (fun m => decide (m.1.mealType = MealType.lunch)) = [] := by
    rw [List.filter_eq_nil_iff]
    rintro ⟨m, uname⟩ hm
    simp only [decide_eq_true_eq]
    intro hlunch
    revert hm
    show ⟨m, uname⟩ ∈ getGroupMealsForDate (some s) groupId date → False
    unfold getGroupMealsForDate
    dsimp only
    split_ifs with hempty
    · intro hmem
      simp at hmem
    · intro hmem
      rw [List.mem_map] at hmem
      obtain ⟨meal, hmeal, heq⟩ := hmem
      have hmeq : meal = m := congrArg Prod.fst heq
      subst hmeq
      rw [List.mem_filter] at hmeal
      obtain ⟨hmeal_mem, hcond⟩ := hmeal
      rw [Bool.and_eq_true, decide_eq_true_eq] at hcond
      obtain ⟨hcontains, hdate⟩ := hcond
      rw [List.contains_iff_exists_mem_beq] at hcontains
      obtain ⟨uid, huid_mem, hbeq⟩ := hcontains
      rw [List.mem_map] at huid_mem
      obtain ⟨mem, hmem_mem, huid⟩ := huid_mem
      rw [List.mem_filter, decide_eq_true_eq] at hmem_mem
      rw [beq_iff_eq] at hbeq
      have huid2 : mem.userId = uid := huid
      have huid_eq : meal.userId = mem.userId := by omega
      exact h mem hmem_mem.1 hmem_mem.2 meal hmeal_mem huid_eq hdate hlunch
  unfold getGroupDinnerRecommendations
  simp [hnil]

/-- C8 witness: a one-member group whose only record for the date is a
dinner. -/
theorem getGroupDinnerRecommendations_fallback_no_lunches_witness :
    getGroupDinnerRecommendations
        (some { users := [{ id := 4, openId := "m", name := some "member",
                            email := none, loginMethod := none,
                            role := "user", lastSignedIn := 0,
                            notificationEnabled := some true,
                            lunchReminderTime := some "12:00" }],
                meals := [{ id := 1, userId := 4, groupId := none,
                            date := { year := 2025, month := 12, day := 16 },
                            mealType := MealType.dinner, dishName := "カレー",
                            category := Category.japanese, note := none,
                            imageUrl := none, isFavorite := some false }],
                groups := [{ id := 3, name := "g", description := none,
                             inviteCode := "ABCDEFGH", ownerId := 4 }],
                members := [{ groupId := 3, userId := 4,
                              role := MemberRole.owner }],
                nextUserId := 5, nextMealId := 2, nextGroupId := 4 })
        3 { year := 2025, month := 12, day := 16 } LLMOutcome.requestError
      = { recommendations := fallbackRecommendations, memberLunches := [] } :=
  getGroupDinnerRecommendations_fallback_no_lunches _ 3
    { year := 2025, month := 12, day := 16 } (by decide)
    LLMOutcome.requestError

/-! Supporting lemmas for the weekly report. -/

theorem foldl_markMeal_closed (l : List MealRecord)
    (es : List (CivilDate × Bool × Bool)) :
    l.foldl markMeal es = es.map fun e =>
      (e.1,
       e.2.1 || l.any fun m =>
         decide (e.1 = m.date ∧ m.mealType = MealType.lunch),
       e.2.2 || l.any fun m =>
         decide (e.1 = m.date ∧ m.mealType = MealType.dinner)) := by
  induction l generalizing es with
  | nil => simp
  | cons m tail ih =>
    rw [List.foldl_cons, ih]
    unfold markMeal
    rw [List.map_map]
    congr 1
    funext e
    simp only [Function.comp]
    by_cases h : e.1 = m.date
    · cases hm : m.mealType <;>
        simp [h, hm, List.any_cons]
    · simp [h, List.any_cons]

theorem rangeAny_eq_specExists (db : Db) (uid : Nat)
    (startDate endDate d : CivilDate)
    (h1 : dateLe startDate d) (h2 : dateLe d endDate) (t : MealType) :
    ((getMealsByDateRange db uid startDate endDate).any fun m =>
        decide (d = m.date ∧ m.mealType = t))
      = decide (∃ m ∈ dbMealList db, m.userId = uid ∧ m.date = d ∧
          m.mealType = t) := by
  cases db with
  | none => simp [getMealsByDateRange, dbMealList]
  | some s =>
    rw [Bool.eq_iff_iff]
    simp only [List.any_eq_true, decide_eq_true_eq, getMealsByDateRange,
      dbMealList]
    constructor
    · rintro ⟨m, hm, hd, ht⟩
      rw [mem_orderByDateDesc, List.mem_filter, decide_eq_true_eq] at hm
      exact ⟨m, hm.1, hm.2.1, hd.symm, ht⟩
    · rintro ⟨m, hmem, huid, hdate, ht⟩
      refine ⟨m, ?_, hdate.symm, ht⟩
      rw [mem_orderByDateDesc, List.mem_filter, decide_eq_true_eq]
      exact ⟨hmem, huid, by rw [hdate]; exact h1, by rw [hdate]; exact h2⟩

theorem weeklyReport_completedDays (db : Db) (uid : Nat)
    (start : CivilDate) (hv : start.valid) :
    ((getMealsByDateRange db uid start (addDays start 6)).foldl markMeal
        (((List.range 7).map fun i => addDays start i).map
          fun d => (d, false, false))).countP (fun e => e.2.1 && e.2.2)
      = specCompletedDays db uid start := by
  rw [foldl_markMeal_closed]
  simp only [List.map_map, List.countP_map]
  unfold specCompletedDays
  apply List.countP_congr
  intro i hi
  rw [List.mem_range] at hi
  simp only [Function.comp, Bool.false_or]
  rw [rangeAny_eq_specExists db uid start (addDays start 6) (addDays start i)
        (dateLe_addDays hv i) (addDays_mono hv (by omega)) MealType.lunch,
      rangeAny_eq_specExists db uid start (addDays start 6) (addDays start i)
        (dateLe_addDays hv i) (addDays_mono hv (by omega)) MealType.dinner,
      ← Bool.decide_and]

/-- C3: for every valid week start date, the weekly report computes the
week end date as the start date plus 6 days (2025-12-16 gives
2025-12-22) and the completion rate as `round(completedDays / 7 * 100)`,
where a window day counts as completed exactly when both a lunch record
and a dinner record of the user exist for that date. -/
theorem getWeeklyReport_weekEnd_completionRate
    (db : Db) (userId : Nat) (weekStartDate : CivilDate)
    (hv : weekStartDate.valid) :
    (getWeeklyReport db userId weekStartDate).weekEndDate
      = addDays weekStartDate 6 ∧
    (getWeeklyReport db userId weekStartDate).completionRate
      = jsRound ((specCompletedDays db userId weekStartDate : ℚ) / 7 * 100) ∧
    formatDate (addDays { year := 2025, month := 12, day := 16 } 6)
      = "2025-12-22" := by
  refine ⟨?_, ?_, ?_⟩
  · unfold getWeeklyReport
    dsimp only
  · unfold getWeeklyReport
    dsimp only
    rw [weeklyReport_completedDays db userId weekStartDate hv]
  · rfl

/-- C3 witness: the empty store and the example week 2025-12-16. -/
theorem getWeeklyReport_weekEnd_completionRate_witness :
    (getWeeklyReport none 1 { year := 2025, month := 12, day := 16 }).weekEndDate
      = addDays { year := 2025, month := 12, day := 16 } 6 ∧
    (getWeeklyReport none 1 { year := 2025, month := 12, day := 16 }).completionRate
      = jsRound ((specCompletedDays none 1
          { year := 2025, month := 12, day := 16 } : ℚ) / 7 * 100) ∧
    formatDate (addDays { year := 2025, month := 12, day := 16 } 6)
      = "2025-12-22" :=
  getWeeklyReport_weekEnd_completionRate none 1
    { year := 2025, month := 12, day := 16 } (by decide)

/-- C10 (implicit): when the ownership check of `groups.delete` fails —
the caller is not the stored owner, or the group does not exist — no
delete statement runs: the returned store is the input store unchanged. -/
theorem groupsDelete_noop_on_auth_failure
    (s : DbState) (groupId callerId : Nat)
    (h : ∀ g, s.groups.find? (fun g => decide (g.id = groupId)) = some g →
      g.ownerId ≠ callerId) :
    deleteGroup (some s) groupId callerId
      = (Except.error "Not authorized to delete this group", some s) := by
  cases hfind : s.groups.find? (fun g => decide (g.id = groupId)) with
  | none => simp [deleteGroup, hfind]
  | some g => simp [deleteGroup, hfind, h g hfind]

/-- C10 witness: a non-owner call leaves the store untouched. -/
theorem groupsDelete_noop_on_auth_failure_witness :
    deleteGroup
        (some { users := [], meals := [],
                groups := [{ id := 1, name := "g", description := none,
                             inviteCode := "ABCDEFGH", ownerId := 7 }],
                members := [{ groupId := 1, userId := 7,
                              role := MemberRole.owner }],
                nextUserId := 8, nextMealId := 1, nextGroupId := 2 })
        1 9
      = (Except.error "Not authorized to delete this group",
         some { users := [], meals := [],
                groups := [{ id := 1, name := "g", description := none,
                             inviteCode := "ABCDEFGH", ownerId := 7 }],
                members := [{ groupId := 1, userId := 7,
                              role := MemberRole.owner }],
                nextUserId := 8, nextMealId := 1, nextGroupId := 2 }) :=
  groupsDelete_noop_on_auth_failure _ 1 9 (by decide)

end Hiruyoru
